import Mathlib

/-!
Shallow embedding of `src/main.py` (MRS spreadsheet analyzer).

The program reads per-subject two-row CSV spreadsheets into `RatData`
records (`read_csv`), merges two condition lists into one wide table
(`write_csv`), and is driven by `main`, which parses subject metadata out
of directory names.  Python values that matter here are strings, ints and
floats; floats are modelled as exact rationals (the spec treats them as
decimals), ints as `Int`, dicts as insertion-ordered association lists
with Python's update-in-place semantics, and exceptions as `Except`
errors (`indexError` for out-of-range accesses, `valueError` for failed
numeric conversion, `keyError` for missing dict keys).
-/

set_option autoImplicit false

namespace Analyzer

/-- A Python scalar value as it appears in this program: `str`, `int`, or
`float` (modelled exactly as a rational). -/
inductive PyVal where
  | str (s : String)
  | int (n : Int)
  | float (q : Rat)
deriving DecidableEq, Repr, Inhabited

/-- Characters removed by Python's `str.strip()` (whitespace). -/
def trimChars (cs : List Char) : List Char :=
  ((cs.dropWhile Char.isWhitespace).reverse.dropWhile Char.isWhitespace).reverse

/-- Models Python `str.strip()`: drop surrounding whitespace. -/
def pyStrip (s : String) : String :=
  ⟨trimChars s.toList⟩

/-- Numeric value of a digit string (most significant first). -/
def digitsVal (ds : List Char) : Nat :=
  ds.foldl (fun a c => a * 10 + (c.toNat - 48)) 0

/-- Split a leading sign off a character list, as Python's numeric
conversions do. -/
def parseSign : List Char → Int × List Char
  | '-' :: rest => (-1, rest)
  | '+' :: rest => (1, rest)
  | cs => (1, cs)

/-- Models Python `int(s)`: optional surrounding whitespace, optional
sign, then one or more digits; anything else fails. -/
def parseInt? (s : String) : Option Int :=
  let cs := trimChars s.toList
  let (sg, ds) := parseSign cs
  if !ds.isEmpty && ds.all Char.isDigit then some (sg * (digitsVal ds : Int)) else none

/-- Models Python `float(s)` on the decimal forms this program meets:
optional surrounding whitespace, optional sign, digits with an optional
fractional part (at least one digit overall); anything else fails.  The
value is exact: no precision is lost. -/
def parseFloat? (s : String) : Option Rat :=
  let cs := trimChars s.toList
  let (sg, rest) := parseSign cs
  let intPart := rest.takeWhile Char.isDigit
  let rest2 := rest.dropWhile Char.isDigit
  match rest2 with
  | [] => if intPart.isEmpty then none else some (mkRat (sg * (digitsVal intPart : Int)) 1)
  | '.' :: frac =>
      if frac.all Char.isDigit && (!intPart.isEmpty || !frac.isEmpty) then
        some (mkRat (sg * ((digitsVal intPart * 10 ^ frac.length + digitsVal frac : Nat) : Int))
          (10 ^ frac.length))
      else none
  | _ => none

/-- The rows of a CSV file, as `csv.reader` yields them. -/
abbrev Table := List (List String)

/-- Errors raised while reading: `indexError` models an out-of-range list
access, `valueError` a failed `float()`/`int()` conversion. -/
inductive ReadErr where
  | indexError
  | valueError
deriving DecidableEq, Repr

/-- `data_rows[r][i]` with Python semantics: an out-of-range access
raises `IndexError`. -/
def cell (table : Table) (r i : Nat) : Except ReadErr String :=
  match table[r]? with
  | none => .error .indexError
  | some row => match row[i]? with
    | none => .error .indexError
    | some s => .ok s

/-- Total variant of `cell` used only in closed-form statements. -/
def cellD (table : Table) (r i : Nat) : String :=
  (table.getD r []).getD i ""

/-- `float(s)` raising `ValueError` on failure. -/
def parseF (s : String) : Except ReadErr Rat :=
  match parseFloat? s with
  | some q => .ok q
  | none => .error .valueError

/-- `int(s)` raising `ValueError` on failure. -/
def parseI (s : String) : Except ReadErr Int :=
  match parseInt? s with
  | some n => .ok n
  | none => .error .valueError

/-- One subject's data object under one condition (class `RatData` and
its two subclasses; the subclasses differ only in the constant `iso`
tag).  `metabolites` is a Python dict: an insertion-ordered association
list. -/
structure RatData where
  id : String
  gender : String
  genetics : String
  iso : String
  metabolites : List (String × List (String × PyVal))
deriving DecidableEq, Repr, Inhabited

/-- Python `d[k] = v` on an insertion-ordered dict: update in place if
the key is present, else append at the end. -/
def dictInsert {α : Type} (d : List (String × α)) (k : String) (v : α) : List (String × α) :=
  if d.any (fun p => p.1 == k) then
    d.map (fun p => if p.1 == k then (k, v) else p)
  else d ++ [(k, v)]

/-- Number of iterations of `for i in range(2, L, 3)`. -/
def numIters (L : Nat) : Nat :=
  if L ≤ 2 then 0 else (L - 3) / 3 + 1

/-- The body of `read_csv`'s loop over header groups (lines 79–83),
iterated with explicit fuel: starting at column `i`, consume groups of
three columns, evaluating the accesses and conversions in Python's
left-to-right order, and bind the group under its trimmed first header. -/
def readLoop (table : Table) (iso : String) :
    List (String × List (String × PyVal)) → Nat → Nat →
      Except ReadErr (List (String × List (String × PyVal)))
  | m, _, 0 => .ok m
  | m, i, n + 1 => do
      let h0 ← cell table 0 i
      let v0 ← parseF (← cell table 1 i)
      let h1 ← cell table 0 (i + 1)
      let v1 ← parseI (← cell table 1 (i + 1))
      let h2 ← cell table 0 (i + 2)
      let v2 ← parseF (← cell table 1 (i + 2))
      let value := [(pyStrip h0 ++ " " ++ iso, PyVal.float v0),
                    (pyStrip h1 ++ " " ++ iso, PyVal.int v1),
                    (pyStrip h2 ++ " " ++ iso, PyVal.float v2)]
      readLoop table iso (dictInsert m (pyStrip h0) value) (i + 3) n

/-- Embeds `read_csv` (lines 70–85): build the record with the condition
tag fixed by the `iso` flag, then fill `metabolites` from the two-row
table. -/
def read_csv (table : Table) (rat_id gender genetics : String) (iso : Bool) :
    Except ReadErr RatData :=
  let isoStr := if iso then "iso_high" else "iso_low"
  match table[0]? with
  | none => .error .indexError
  | some row0 =>
      match readLoop table isoStr [] 2 (numIters row0.length) with
      | .error e => .error e
      | .ok m => .ok ⟨rat_id, gender, genetics, isoStr, m⟩

/-- Errors raised while merging/writing: out-of-range list index, or a
dict lookup with a missing key. -/
inductive WriteErr where
  | indexError
  | keyError
deriving DecidableEq, Repr

/-- What `write_csv` does observably: either it prints the
"No rat data available" diagnostic and writes nothing (`noData`), or it
writes the table `MRS_Data.csv` with the given header field names and
one dict row per subject (`wrote`). -/
inductive WriteOutcome where
  | noData
  | wrote (fields : List String) (rows : List (List (String × PyVal)))
deriving DecidableEq, Repr

/-- An output row: a Python dict from column name to value. -/
abbrev OutRow := List (String × PyVal)

/-- `l[i]` with Python's `IndexError` on overflow. -/
def nthW {α : Type} (l : List α) (i : Nat) : Except WriteErr α :=
  match l[i]? with
  | some a => .ok a
  | none => .error .indexError

/-- Python dict lookup `d[k]`, raising `KeyError` when absent. -/
def lookupKey {α : Type} (d : List (String × α)) (k : String) : Except WriteErr α :=
  match d.find? (fun p => p.1 == k) with
  | some p => .ok p.2
  | none => .error .keyError

/-- `r.metabolites[key][j]`: the `j`-th (name, value) pair of a
metabolite's stored triple. -/
def subEntry (r : RatData) (key : String) (j : Nat) : Except WriteErr (String × PyVal) := do
  let subs ← lookupKey r.metabolites key
  nthW subs j

/-- `r.metabolites[key][j][0]`: the stored column name. -/
def subName (r : RatData) (key : String) (j : Nat) : Except WriteErr String := do
  let p ← subEntry r key j
  pure p.1

/-- The keys of the first record's dict, `list(rat_high[0].metabolites.keys())`. -/
def keysOf (r : RatData) : List String :=
  r.metabolites.map Prod.fst

/-- The six header names contributed by one metabolite key (lines
102–104): for each of the three sub-fields, the first list's stored name
then the second list's stored name. -/
def fieldsFor (h0 l0 : RatData) (key : String) : Except WriteErr (List String) := do
  let a0 ← subName h0 key 0
  let b0 ← subName l0 key 0
  let a1 ← subName h0 key 1
  let b1 ← subName l0 key 1
  let a2 ← subName h0 key 2
  let b2 ← subName l0 key 2
  pure [a0, b0, a1, b1, a2, b2]

/-- The loop of lines 100–104 over the first record's keys. -/
def fieldsLoop (h0 l0 : RatData) : List String → Except WriteErr (List String)
  | [] => .ok []
  | key :: rest => do
      let g ← fieldsFor h0 l0 key
      let r ← fieldsLoop h0 l0 rest
      pure (g ++ r)

/-- The full header list (lines 95–104): the three identity fields, then
six columns per metabolite of the first pair of records. -/
def buildFields (h0 l0 : RatData) : Except WriteErr (List String) := do
  let gs ← fieldsLoop h0 l0 (keysOf h0)
  pure (["Id", "Genotype", "Gender"] ++ gs)

/-- One iteration of the inner loop over metabolites (lines 112–116) for
subject `k`: the two `plot_data` accesses (whose failures abort the
operation, results otherwise unused here), then the three assignments
into the row dict, all taken from the first list's record `hk`. -/
def rowForItem (hk lk : RatData) (row : OutRow) (key : String) : Except WriteErr OutRow := do
  let _ ← subEntry hk key 0
  let _ ← subEntry lk key 0
  let e0 ← subEntry hk key 0
  let e1 ← subEntry hk key 1
  let e2 ← subEntry hk key 2
  pure (dictInsert (dictInsert (dictInsert row e0.1 e0.2) e1.1 e1.2) e2.1 e2.2)

/-- One data row (lines 107–118): the identity dict literal for subject
`k` of the first list, the `rat_low[k]` access of line 111, then the
metabolite loop. -/
def buildRow (rat_low : List RatData) (hk : RatData) (k : Nat) (keys : List String) :
    Except WriteErr OutRow := do
  let base : OutRow :=
    [("Id", PyVal.str hk.id), ("Gender", PyVal.str hk.gender), ("Genotype", PyVal.str hk.genetics)]
  let lk ← nthW rat_low k
  keys.foldlM (fun row key => rowForItem hk lk row key) base

/-- The loop `for k in range(len(rat_high))` (lines 106–118), iterated
with explicit fuel from index `k`. -/
def buildRowsAux (rat_high rat_low : List RatData) (keys : List String) :
    Nat → Nat → Except WriteErr (List OutRow)
  | _, 0 => .ok []
  | k, n + 1 => do
      let hk ← nthW rat_high k
      let row ← buildRow rat_low hk k keys
      let rest ← buildRowsAux rat_high rat_low keys (k + 1) n
      pure (row :: rest)

/-- Embeds `write_csv` (lines 88–128): with an empty list on either side
the function prints "No rat data available" and returns without writing;
otherwise it builds the header from the first pair of records and one
row per record of the first list, then writes header and rows. -/
def write_csv (rat_high rat_low : List RatData) : Except WriteErr WriteOutcome :=
  if rat_high.length < 1 || rat_low.length < 1 then .ok .noData
  else do
    let h0 ← nthW rat_high 0
    let l0 ← nthW rat_low 0
    let fs ← buildFields h0 l0
    let rows ← buildRowsAux rat_high rat_low (keysOf h0) 0 rat_high.length
    pure (.wrote fs rows)

/-- `csv.DictWriter` serialization of one row: for each header field in
order, the row's value for that field, or `none` (written as the empty
string, `DictWriter`'s `restval`) when the row has no such key. -/
def serializeRow (fields : List String) (row : OutRow) : List (Option PyVal) :=
  fields.map (fun f => (row.find? (fun p => p.1 == f)).map Prod.snd)

/-- Embeds line 207: `main` invokes `write_csv(rats_low, rats_high, ...)`,
passing the low-condition list as the first argument. -/
def main_write (rats_low rats_high : List RatData) : Except WriteErr WriteOutcome :=
  write_csv rats_low rats_high

/-! ### Closed forms

Total functions computing what the monadic embeddings return on
compatible inputs; the simulation theorems below relate the two. -/

/-- `r.metabolites[key][j]` with defaults, for closed-form statements. -/
def subPairD (r : RatData) (key : String) (j : Nat) : String × PyVal :=
  (((r.metabolites.find? (fun p => p.1 == key)).map Prod.snd).getD []).getD j ("", PyVal.str "")

/-- Closed form of `fieldsFor`. -/
def groupNames (h0 l0 : RatData) (key : String) : List String :=
  [(subPairD h0 key 0).1, (subPairD l0 key 0).1,
   (subPairD h0 key 1).1, (subPairD l0 key 1).1,
   (subPairD h0 key 2).1, (subPairD l0 key 2).1]

/-- Closed form of `buildFields`: the header written by `write_csv`,
built only from the first record of each list. -/
def fieldsSpec (h0 l0 : RatData) : List String :=
  ["Id", "Genotype", "Gender"] ++ ((keysOf h0).map (groupNames h0 l0)).flatten

/-- Closed form of `rowForItem`'s three dict assignments. -/
def rowStep (hk : RatData) (row : OutRow) (key : String) : OutRow :=
  dictInsert (dictInsert (dictInsert row (subPairD hk key 0).1 (subPairD hk key 0).2)
      (subPairD hk key 1).1 (subPairD hk key 1).2)
    (subPairD hk key 2).1 (subPairD hk key 2).2

/-- Closed form of `buildRow`: the data row for one record of the first
list.  Every value in it comes from that record alone. -/
def rowSpec (hk : RatData) (keys : List String) : OutRow :=
  keys.foldl (rowStep hk) [("Id", PyVal.str hk.id), ("Gender", PyVal.str hk.gender),
    ("Genotype", PyVal.str hk.genetics)]

/-- All column names a data row for record `hk` can possibly bind: the
three identity fields and `hk`'s stored sub-field names. -/
def hkColumns (hk : RatData) (keys : List String) : List String :=
  "Id" :: "Gender" :: "Genotype" ::
    (keys.map (fun key =>
      [(subPairD hk key 0).1, (subPairD hk key 1).1, (subPairD hk key 2).1])).flatten

/-- `key` is bound in `r.metabolites` to a list with at least 3 entries
(all lookups `r.metabolites[key][j]`, `j < 3`, succeed). -/
def compat3 (r : RatData) (key : String) : Bool :=
  match (r.metabolites.find? (fun p => p.1 == key)).map Prod.snd with
  | some subs => decide (3 ≤ subs.length)
  | none => false

/-- `key` is bound in `r.metabolites` to a non-empty list (the lookup
`r.metabolites[key][0]` succeeds). -/
def compat1 (r : RatData) (key : String) : Bool :=
  match (r.metabolites.find? (fun p => p.1 == key)).map Prod.snd with
  | some subs => decide (1 ≤ subs.length)
  | none => false

/-- Every dict access `write_csv` performs on these two lists succeeds:
for each key of the first record's dict, both first records carry 3
sub-entries, every record of the first list carries 3, and every record
of the second list that gets paired (index below the first list's
length) carries at least 1. -/
def writeCompat (rat_high rat_low : List RatData) : Bool :=
  match rat_high, rat_low with
  | h0 :: _, l0 :: _ =>
      (keysOf h0).all (fun key =>
        compat3 h0 key && compat3 l0 key &&
        rat_high.all (fun r => compat3 r key) &&
        (rat_low.take rat_high.length).all (fun r => compat1 r key))
  | _, _ => false

/-- The three data cells of the header group starting at column `i` all
convert (`float`, `int`, `float`). -/
def groupParses (table : Table) (i : Nat) : Bool :=
  (parseFloat? (cellD table 1 i)).isSome &&
  (parseInt? (cellD table 1 (i + 1))).isSome &&
  (parseFloat? (cellD table 1 (i + 2))).isSome

/-- Closed form of one `readLoop` group: the dict entry `read_csv`
creates for the group starting at column `i`. -/
def groupEntryR (row0 row1 : List String) (iso : String) (i : Nat) :
    String × List (String × PyVal) :=
  (pyStrip (row0.getD i ""),
   [(pyStrip (row0.getD i "") ++ " " ++ iso, PyVal.float ((parseFloat? (row1.getD i "")).getD 0)),
    (pyStrip (row0.getD (i + 1) "") ++ " " ++ iso,
      PyVal.int ((parseInt? (row1.getD (i + 1) "")).getD 0)),
    (pyStrip (row0.getD (i + 2) "") ++ " " ++ iso,
      PyVal.float ((parseFloat? (row1.getD (i + 2) "")).getD 0))])

/-- The trimmed first header of group `g`: the metabolite key. -/
def keyAt (row0 : List String) (g : Nat) : String :=
  pyStrip (row0.getD (2 + 3 * g) "")

/-- The header row consists of complete groups of three columns from
index 2 onward (this includes headers of fewer than 3 columns, which
yield no group at all). -/
def headerComplete (L : Nat) : Bool :=
  (L - 2) % 3 == 0

/-- The output header as the spec describes it, for two input files
sharing the header row `row0` with `M` metabolite groups: the three
identity fields, then for each group and each of its three sub-field
headers (trimmed), the high-condition column then the low-condition
column, each name joining the trimmed header and the condition label. -/
def headerNamesSpec (row0 : List String) (M : Nat) : List String :=
  ["Id", "Genotype", "Gender"] ++
    ((List.range M).map (fun g =>
      [pyStrip (row0.getD (2 + 3 * g) "") ++ " " ++ "iso_high",
       pyStrip (row0.getD (2 + 3 * g) "") ++ " " ++ "iso_low",
       pyStrip (row0.getD (2 + 3 * g + 1) "") ++ " " ++ "iso_high",
       pyStrip (row0.getD (2 + 3 * g + 1) "") ++ " " ++ "iso_low",
       pyStrip (row0.getD (2 + 3 * g + 2) "") ++ " " ++ "iso_high",
       pyStrip (row0.getD (2 + 3 * g + 2) "") ++ " " ++ "iso_low"])).flatten

/-! ### Driver embedding -/

/-- Python `s.split('_')` on the underlying characters. -/
def splitUnderscore : List Char → List (List Char)
  | [] => [[]]
  | c :: cs =>
      let rest := splitUnderscore cs
      if c = '_' then [] :: rest
      else (c :: rest.headD []) :: rest.tail

/-- Python `name.split('_')` for strings. -/
def pySplitUnderscore (s : String) : List String :=
  (splitUnderscore s.toList).map (fun cs => ⟨cs⟩)

/-- Embeds lines 189–192 of `main`: strip the directory name, split on
underscores, and take components 1, 6 and 7 as subject id, genotype and
gender; a missing component is an `IndexError` (`none`). -/
def parse_subject_dir (name : String) : Option (String × String × String) :=
  let lst := pySplitUnderscore (pyStrip name)
  match lst[1]?, lst[6]?, lst[7]? with
  | some i, some g6, some g7 => some (i, g6, g7)
  | _, _, _ => none

/-- Embeds line 197: the high-condition branch is chosen exactly when
the condition directory name contains the substring "high". -/
def is_high (iso_dir : String) : Bool :=
  decide (List.IsInfix "high".toList iso_dir.toList)

/-! ### Concrete records (the spec's concrete scenario, subject "7") -/

/-- Subject 7's high-condition record, as `read_csv` builds it from
header `,,Cr,Cr %SD,Cr /Cr+PCr,NAA,NAA %SD,NAA /Cr+PCr` and data row
`7,x,8.2,5,1.0,9.4,4,1.1`. -/
def highRec : RatData :=
  ⟨"7", "M", "Tg", "iso_high",
   [("Cr", [("Cr iso_high", .float (mkRat 41 5)), ("Cr %SD iso_high", .int 5),
            ("Cr /Cr+PCr iso_high", .float (mkRat 1 1))]),
    ("NAA", [("NAA iso_high", .float (mkRat 47 5)), ("NAA %SD iso_high", .int 4),
             ("NAA /Cr+PCr iso_high", .float (mkRat 11 10))])]⟩

/-- Subject 7's low-condition record (`Cr = 7.9`, `NAA = 9.0`). -/
def lowRec : RatData :=
  ⟨"7", "M", "Tg", "iso_low",
   [("Cr", [("Cr iso_low", .float (mkRat 79 10)), ("Cr %SD iso_low", .int 6),
            ("Cr /Cr+PCr iso_low", .float (mkRat 1 1))]),
    ("NAA", [("NAA iso_low", .float (mkRat 9 1)), ("NAA %SD iso_low", .int 5),
             ("NAA /Cr+PCr iso_low", .float (mkRat 6 5))])]⟩

/-- Is the outcome a written table? -/
def isWrote : Except WriteErr WriteOutcome → Bool
  | .ok (.wrote _ _) => true
  | _ => false

/-- Header fields of a written table (empty if none was written). -/
def wroteFields : Except WriteErr WriteOutcome → List String
  | .ok (.wrote fs _) => fs
  | _ => []

/-- Data rows of a written table (empty if none was written). -/
def wroteRows : Except WriteErr WriteOutcome → List OutRow
  | .ok (.wrote _ rows) => rows
  | _ => []

/-- Decidable equality of outcomes, so concrete runs can be settled by
`decide`. -/
instance {ε α : Type} [DecidableEq ε] [DecidableEq α] : DecidableEq (Except ε α) := fun a b =>
  match a, b with
  | .error e, .error f =>
      if h : e = f then .isTrue (congrArg Except.error h)
      else .isFalse (fun hh => h (Except.error.inj hh))
  | .ok x, .ok y =>
      if h : x = y then .isTrue (congrArg Except.ok h)
      else .isFalse (fun hh => h (Except.ok.inj hh))
  | .error _, .ok _ => .isFalse (fun hh => Except.noConfusion hh)
  | .ok _, .error _ => .isFalse (fun hh => Except.noConfusion hh)

/-! ### Generic lemmas -/

theorem exceptBind_ok {ε α β : Type} (a : α) (f : α → Except ε β) :
    (Except.ok a : Except ε α) >>= f = f a := rfl

theorem exceptBind_err {ε α β : Type} (e : ε) (f : α → Except ε β) :
    (Except.error e : Except ε α) >>= f = .error e := rfl

theorem exceptPure_eq {ε α : Type} (a : α) : (pure a : Except ε α) = .ok a := rfl

theorem exceptMap_ok {ε α β : Type} (f : α → β) (a : α) :
    f <$> (Except.ok a : Except ε α) = .ok (f a) := rfl

theorem dictInsert_of_not_mem {α : Type} {d : List (String × α)} {k : String}
    (h : k ∉ d.map Prod.fst) (v : α) : dictInsert d k v = d ++ [(k, v)] := by
  have hany : d.any (fun p => p.1 == k) = false := by
    rw [List.any_eq_false]
    intro p hp
    simp only [beq_iff_eq]
    intro he
    exact h (he ▸ List.mem_map_of_mem Prod.fst hp)
  simp [dictInsert, hany]

theorem nthW_ok {α : Type} {l : List α} {i : Nat} (h : i < l.length) :
    nthW l i = .ok l[i] := by
  simp [nthW, List.getElem?_eq_getElem h]

theorem nthW_err {α : Type} {l : List α} {i : Nat} (h : l.length ≤ i) :
    nthW l i = .error .indexError := by
  simp [nthW, List.getElem?_eq_none h]

theorem cell_ok {table : Table} {r i : Nat} {row : List String}
    (hr : table[r]? = some row) (hi : i < row.length) :
    cell table r i = .ok row[i] := by
  simp [cell, hr, List.getElem?_eq_getElem hi]

theorem cellD_eq {table : Table} {r i : Nat} {row : List String}
    (hr : table[r]? = some row) (hi : i < row.length) :
    cellD table r i = row[i] := by
  have hrow : table.getD r [] = row := by
    rw [List.getD_eq_getD_get?, List.get?_eq_getElem?, hr]
    rfl
  rw [cellD, hrow, List.getD_eq_getElem _ _ hi]

theorem parseF_ok {s : String} (h : (parseFloat? s).isSome) :
    parseF s = .ok ((parseFloat? s).getD 0) := by
  cases hp : parseFloat? s with
  | none => rw [hp] at h; simp at h
  | some q => simp [parseF, hp]

theorem parseI_ok {s : String} (h : (parseInt? s).isSome) :
    parseI s = .ok ((parseInt? s).getD 0) := by
  cases hp : parseInt? s with
  | none => rw [hp] at h; simp at h
  | some n => simp [parseI, hp]

theorem cellD_eqD {table : Table} {r : Nat} {row : List String}
    (hr : table[r]? = some row) (i : Nat) :
    cellD table r i = row.getD i "" := by
  have hrow : table.getD r [] = row := by
    rw [List.getD_eq_getD_get?, List.get?_eq_getElem?, hr]
    rfl
  rw [cellD, hrow]

theorem rangeMapShift {α : Type} (f : Nat → α) (i n : Nat) :
    (List.range (n + 1)).map (fun j => f (i + 3 * j)) =
      f i :: (List.range n).map (fun j => f (i + 3 + 3 * j)) := by
  rw [List.range_succ_eq_map, List.map_cons, List.map_map]
  refine congrArg₂ List.cons (by norm_num) ?_
  refine List.map_congr_left ?_
  intro a _
  have harg : i + 3 * Nat.succ a = i + 3 + 3 * a := by omega
  simp [Function.comp, harg]

/-! ### Read side: closed form and safety -/

theorem readLoop_closed {table : Table} {row0 row1 : List String} (iso : String)
    (h0 : table[0]? = some row0) (h1 : table[1]? = some row1)
    (hlen : row0.length ≤ row1.length) :
    ∀ (n i : Nat) (m : List (String × List (String × PyVal))),
      i + 3 * n ≤ row0.length →
      (∀ j, j < n → groupParses table (i + 3 * j) = true) →
      ((m.map Prod.fst) ++ (List.range n).map (fun j => pyStrip (row0.getD (i + 3 * j) ""))).Nodup →
      readLoop table iso m i n =
        .ok (m ++ (List.range n).map (fun j => groupEntryR row0 row1 iso (i + 3 * j))) := by
  intro n
  induction n with
  | zero => intro i m _ _ _; simp [readLoop]
  | succ n ih =>
      intro i m hn hp hnd
      have hi0 : i < row0.length := by omega
      have hi1 : i + 1 < row0.length := by omega
      have hi2 : i + 2 < row0.length := by omega
      have hr0 : i < row1.length := by omega
      have hr1 : i + 1 < row1.length := by omega
      have hr2 : i + 2 < row1.length := by omega
      have hp0 := hp 0 (Nat.succ_pos n)
      rw [show i + 3 * 0 = i by ring] at hp0
      simp only [groupParses, Bool.and_eq_true, cellD_eqD h1] at hp0
      obtain ⟨⟨hf0, hf1⟩, hf2⟩ := hp0
      rw [rangeMapShift (fun idx => pyStrip (row0.getD idx "")) i n] at hnd
      have hkey : pyStrip (row0.getD i "") ∉ m.map Prod.fst := by
        intro hmem
        rcases List.nodup_append.mp hnd with ⟨_, _, hdisj⟩
        exact hdisj hmem (List.mem_cons_self _ _)
      rw [List.append_cons] at hnd
      simp only [readLoop, cell_ok h0 hi0, cell_ok h0 hi1, cell_ok h0 hi2,
        cell_ok h1 hr0, cell_ok h1 hr1, cell_ok h1 hr2,
        List.getD_eq_getElem row0 "" hi0, List.getD_eq_getElem row0 "" hi1,
        List.getD_eq_getElem row0 "" hi2, List.getD_eq_getElem row1 "" hr0,
        List.getD_eq_getElem row1 "" hr1, List.getD_eq_getElem row1 "" hr2] at hf0 hf1 hf2 ⊢
      simp only [exceptBind_ok]
      rw [parseF_ok hf0, parseI_ok hf1, parseF_ok hf2]
      simp only [exceptBind_ok]
      rw [dictInsert_of_not_mem (by
        rwa [List.getD_eq_getElem row0 "" hi0] at hkey)]
      rw [ih (i + 3) _ (by omega)
        (fun j hj => by
          have := hp (j + 1) (by omega)
          rwa [show i + 3 * (j + 1) = i + 3 + 3 * j by ring] at this)
        (by
          rw [List.map_append]
          simp only [List.map_cons, List.map_nil]
          rwa [List.getD_eq_getElem row0 "" hi0] at hnd)]
      rw [rangeMapShift (fun idx => groupEntryR row0 row1 iso idx) i n]
      simp [groupEntryR, List.getD_eq_getElem row0 "" hi0, List.getD_eq_getElem row0 "" hi1,
        List.getD_eq_getElem row0 "" hi2, List.getD_eq_getElem row1 "" hr0,
        List.getD_eq_getElem row1 "" hr1, List.getD_eq_getElem row1 "" hr2,
        List.getElem?_eq_getElem hi0, List.getElem?_eq_getElem hi1,
        List.getElem?_eq_getElem hi2, List.getElem?_eq_getElem hr0,
        List.getElem?_eq_getElem hr1, List.getElem?_eq_getElem hr2]

theorem numIters_eq {L M : Nat} (h : L = 2 + 3 * M) : numIters L = M := by
  subst h
  simp only [numIters]
  split <;> omega

theorem read_csv_closed {table : Table} {row0 row1 : List String} {M : Nat}
    (h0 : table[0]? = some row0) (h1 : table[1]? = some row1)
    (hM : row0.length = 2 + 3 * M)
    (hlen : row0.length ≤ row1.length)
    (hp : ∀ j, j < M → groupParses table (2 + 3 * j) = true)
    (hnd : ((List.range M).map (fun j => pyStrip (row0.getD (2 + 3 * j) ""))).Nodup)
    (rat_id gender genetics : String) (iso : Bool) :
    read_csv table rat_id gender genetics iso =
      .ok ⟨rat_id, gender, genetics, if iso then "iso_high" else "iso_low",
        (List.range M).map (fun j =>
          groupEntryR row0 row1 (if iso then "iso_high" else "iso_low") (2 + 3 * j))⟩ := by
  have hloop := readLoop_closed (if iso then "iso_high" else "iso_low") h0 h1 hlen M 2 []
    (by omega) hp (by simpa only [List.map_nil, List.nil_append] using hnd)
  simp only [read_csv, h0, numIters_eq hM, hloop]
  simp

theorem readLoop_no_indexError {table : Table} {row0 row1 : List String} (iso : String)
    (h0 : table[0]? = some row0) (h1 : table[1]? = some row1)
    (hlen : row0.length ≤ row1.length) :
    ∀ (n i : Nat) (m : List (String × List (String × PyVal))),
      i + 3 * n ≤ row0.length →
      readLoop table iso m i n ≠ .error .indexError := by
  intro n
  induction n with
  | zero => intro i m _ h; simp [readLoop] at h
  | succ n ih =>
      intro i m hn
      have hi0 : i < row0.length := by omega
      have hi1 : i + 1 < row0.length := by omega
      have hi2 : i + 2 < row0.length := by omega
      have hr0 : i < row1.length := by omega
      have hr1 : i + 1 < row1.length := by omega
      have hr2 : i + 2 < row1.length := by omega
      simp only [readLoop, cell_ok h0 hi0, cell_ok h0 hi1, cell_ok h0 hi2,
        cell_ok h1 hr0, cell_ok h1 hr1, cell_ok h1 hr2, exceptBind_ok]
      cases hf0 : parseFloat? row1[i] with
      | none => simp [parseF, hf0, exceptBind_err]
      | some q0 =>
        simp only [parseF, hf0, exceptBind_ok]
        cases hf1 : parseInt? row1[i + 1] with
        | none => simp [parseI, hf1, exceptBind_err]
        | some q1 =>
          simp only [parseI, hf1, exceptBind_ok]
          cases hf2 : parseFloat? row1[i + 2] with
          | none => simp [parseF, hf2, exceptBind_err]
          | some q2 =>
            simp only [parseF, hf2, exceptBind_ok]
            exact ih (i + 3) _ (by omega)

theorem cell_ok_cellD {table : Table} {r i : Nat} {s : String}
    (h : cell table r i = .ok s) : cellD table r i = s := by
  unfold cell at h
  cases hr : table[r]? with
  | none => rw [hr] at h; exact Except.noConfusion h
  | some row =>
      rw [hr] at h
      dsimp only at h
      cases hi : row[i]? with
      | none => rw [hi] at h; exact Except.noConfusion h
      | some v =>
          rw [hi] at h
          dsimp only at h
          have hrow : table.getD r [] = row := by
            rw [List.getD_eq_getD_get?, List.get?_eq_getElem?, hr]
            rfl
          have hcellv : row.getD i "" = v := by
            rw [List.getD_eq_getD_get?, List.get?_eq_getElem?, hi]
            rfl
          rw [cellD, hrow, hcellv]
          exact Except.ok.inj h

theorem readLoop_ok_parses {table : Table} (iso : String) :
    ∀ (n i : Nat) (m m' : List (String × List (String × PyVal))),
      readLoop table iso m i n = .ok m' →
      ∀ j, j < n → groupParses table (i + 3 * j) = true := by
  intro n
  induction n with
  | zero => intro i m m' _ j hj; omega
  | succ n ih =>
      intro i m m' hok j hj
      simp only [readLoop] at hok
      cases hc0 : cell table 0 i with
      | error e => simp only [hc0, exceptBind_err] at hok; exact Except.noConfusion hok
      | ok h0v =>
      simp only [hc0, exceptBind_ok] at hok
      cases hd0 : cell table 1 i with
      | error e => simp only [hd0, exceptBind_err] at hok; exact Except.noConfusion hok
      | ok s0 =>
      simp only [hd0, exceptBind_ok] at hok
      cases hf0 : parseFloat? s0 with
      | none => simp only [parseF, hf0, exceptBind_err] at hok; exact Except.noConfusion hok
      | some v0 =>
      simp only [parseF, hf0, exceptBind_ok] at hok
      cases hc1 : cell table 0 (i + 1) with
      | error e => simp only [hc1, exceptBind_err] at hok; exact Except.noConfusion hok
      | ok h1v =>
      simp only [hc1, exceptBind_ok] at hok
      cases hd1 : cell table 1 (i + 1) with
      | error e => simp only [hd1, exceptBind_err] at hok; exact Except.noConfusion hok
      | ok s1 =>
      simp only [hd1, exceptBind_ok] at hok
      cases hf1 : parseInt? s1 with
      | none => simp only [parseI, hf1, exceptBind_err] at hok; exact Except.noConfusion hok
      | some v1 =>
      simp only [parseI, hf1, exceptBind_ok] at hok
      cases hc2 : cell table 0 (i + 2) with
      | error e => simp only [hc2, exceptBind_err] at hok; exact Except.noConfusion hok
      | ok h2v =>
      simp only [hc2, exceptBind_ok] at hok
      cases hd2 : cell table 1 (i + 2) with
      | error e => simp only [hd2, exceptBind_err] at hok; exact Except.noConfusion hok
      | ok s2 =>
      simp only [hd2, exceptBind_ok] at hok
      cases hf2 : parseFloat? s2 with
      | none => simp only [parseF, hf2, exceptBind_err] at hok; exact Except.noConfusion hok
      | some v2 =>
      simp only [parseF, hf2, exceptBind_ok] at hok
      cases j with
      | zero =>
          have e0 := cell_ok_cellD hd0
          have e1 := cell_ok_cellD hd1
          have e2 := cell_ok_cellD hd2
          simp [groupParses, e0, e1, e2, hf0, hf1, hf2]
      | succ j' =>
          have hrec := ih (i + 3) _ _ hok j' (by omega)
          rwa [show i + 3 + 3 * j' = i + 3 * (j' + 1) by ring] at hrec

theorem read_csv_no_indexError {table : Table} {row0 row1 : List String}
    (h0 : table[0]? = some row0) (h1 : table[1]? = some row1)
    (hc : headerComplete row0.length = true)
    (hlen : row0.length ≤ row1.length) (rat_id gender genetics : String) (iso : Bool) :
    read_csv table rat_id gender genetics iso ≠ .error .indexError := by
  have hmod : (row0.length - 2) % 3 = 0 := by
    simpa [headerComplete] using hc
  have hne : readLoop table (if iso then "iso_high" else "iso_low") [] 2
      (numIters row0.length) ≠ .error .indexError := by
    by_cases hL : row0.length ≤ 2
    · have hz : numIters row0.length = 0 := by simp [numIters, hL]
      rw [hz]
      simp [readLoop]
    · apply readLoop_no_indexError _ h0 h1 hlen
      have hn2 : 2 + 3 * numIters row0.length = row0.length := by
        simp only [numIters]
        rw [if_neg hL]
        omega
      omega
  intro hcontra
  simp only [read_csv, h0] at hcontra
  cases hl : readLoop table (if iso then "iso_high" else "iso_low") [] 2
      (numIters row0.length) with
  | error e =>
      rw [hl] at hcontra
      simp only at hcontra
      exact hne (by rw [hl, Except.error.inj hcontra])
  | ok m =>
      rw [hl] at hcontra
      exact Except.noConfusion hcontra

theorem read_csv_malformed {table : Table} {row0 row1 : List String} {M : Nat}
    (h0 : table[0]? = some row0) (h1 : table[1]? = some row1)
    (hM : row0.length = 2 + 3 * M)
    (hlen : row0.length ≤ row1.length)
    (hbad : ∃ j, j < M ∧ ¬ groupParses table (2 + 3 * j) = true)
    (rat_id gender genetics : String) (iso : Bool) :
    read_csv table rat_id gender genetics iso = .error .valueError := by
  cases hres : read_csv table rat_id gender genetics iso with
  | ok r =>
      exfalso
      simp only [read_csv, h0] at hres
      cases hl : readLoop table (if iso then "iso_high" else "iso_low") [] 2
          (numIters row0.length) with
      | error e => rw [hl] at hres; exact Except.noConfusion hres
      | ok m =>
          rcases hbad with ⟨j, hj, hbadj⟩
          refine hbadj ?_
          have := readLoop_ok_parses (if iso then "iso_high" else "iso_low")
            (numIters row0.length) 2 [] m hl j (by rw [numIters_eq hM]; exact hj)
          exact this
  | error e =>
      cases e with
      | indexError =>
          exact absurd hres (read_csv_no_indexError h0 h1
            (by simp only [headerComplete, hM]; rw [beq_iff_eq]; omega)
            hlen rat_id gender genetics iso)
      | valueError => rfl

/-! ### Write side: closed form -/

theorem compat3_elim {r : RatData} {key : String} (h : compat3 r key = true) :
    ∃ p, r.metabolites.find? (fun q => q.1 == key) = some p ∧ 3 ≤ p.2.length := by
  cases hf : r.metabolites.find? (fun q => q.1 == key) with
  | none => simp [compat3, hf] at h
  | some p =>
      simp only [compat3, hf] at h
      dsimp only [Option.map] at h
      rw [decide_eq_true_eq] at h
      exact ⟨p, rfl, h⟩

theorem compat1_elim {r : RatData} {key : String} (h : compat1 r key = true) :
    ∃ p, r.metabolites.find? (fun q => q.1 == key) = some p ∧ 1 ≤ p.2.length := by
  cases hf : r.metabolites.find? (fun q => q.1 == key) with
  | none => simp [compat1, hf] at h
  | some p =>
      simp only [compat1, hf] at h
      dsimp only [Option.map] at h
      rw [decide_eq_true_eq] at h
      exact ⟨p, rfl, h⟩

theorem subEntry_ok3 {r : RatData} {key : String} (h : compat3 r key = true)
    (j : Nat) (hj : j < 3) :
    subEntry r key j = .ok (subPairD r key j) := by
  obtain ⟨p, hf, hlen⟩ := compat3_elim h
  have hjlen : j < p.2.length := lt_of_lt_of_le hj hlen
  simp only [subEntry, lookupKey, hf, exceptBind_ok, nthW_ok hjlen]
  simp [subPairD, hf, List.getD_eq_getElem _ _ hjlen, List.getElem?_eq_getElem hjlen]

theorem subEntry_ok1 {r : RatData} {key : String} (h : compat1 r key = true) :
    subEntry r key 0 = .ok (subPairD r key 0) := by
  obtain ⟨p, hf, hlen⟩ := compat1_elim h
  have hjlen : 0 < p.2.length := lt_of_lt_of_le Nat.one_pos hlen
  simp only [subEntry, lookupKey, hf, exceptBind_ok, nthW_ok hjlen]
  simp [subPairD, hf, List.getD_eq_getElem _ _ hjlen, List.getElem?_eq_getElem hjlen]

theorem subName_ok3 {r : RatData} {key : String} (h : compat3 r key = true)
    (j : Nat) (hj : j < 3) :
    subName r key j = .ok (subPairD r key j).1 := by
  simp only [subName, subEntry_ok3 h j hj, exceptBind_ok, exceptPure_eq]

theorem fieldsFor_ok {h0 l0 : RatData} {key : String}
    (hh : compat3 h0 key = true) (hl : compat3 l0 key = true) :
    fieldsFor h0 l0 key = .ok (groupNames h0 l0 key) := by
  simp only [fieldsFor,
    subName_ok3 hh 0 (by norm_num), subName_ok3 hh 1 (by norm_num),
    subName_ok3 hh 2 (by norm_num), subName_ok3 hl 0 (by norm_num),
    subName_ok3 hl 1 (by norm_num), subName_ok3 hl 2 (by norm_num), exceptBind_ok]
  rfl

theorem fieldsLoop_ok {h0 l0 : RatData} : ∀ {keys : List String},
    (∀ key ∈ keys, compat3 h0 key = true ∧ compat3 l0 key = true) →
    fieldsLoop h0 l0 keys = .ok ((keys.map (groupNames h0 l0)).flatten) := by
  intro keys
  induction keys with
  | nil => intro _; simp [fieldsLoop]
  | cons key rest ih =>
      intro hc
      obtain ⟨hh, hl⟩ := hc key (List.mem_cons_self _ _)
      simp only [fieldsLoop, fieldsFor_ok hh hl, exceptBind_ok,
        ih (fun k hk => hc k (List.mem_cons_of_mem _ hk)), exceptPure_eq]
      simp

theorem buildFields_ok {h0 l0 : RatData}
    (hc : ∀ key ∈ keysOf h0, compat3 h0 key = true ∧ compat3 l0 key = true) :
    buildFields h0 l0 = .ok (fieldsSpec h0 l0) := by
  simp only [buildFields, fieldsLoop_ok hc, exceptBind_ok]
  rfl

theorem rowForItem_ok {hk lk : RatData} {key : String}
    (hh : compat3 hk key = true) (hl : compat1 lk key = true) (row : OutRow) :
    rowForItem hk lk row key = .ok (rowStep hk row key) := by
  simp only [rowForItem, subEntry_ok3 hh 0 (by norm_num), subEntry_ok3 hh 1 (by norm_num),
    subEntry_ok3 hh 2 (by norm_num), subEntry_ok1 hl, exceptBind_ok]
  rfl

theorem foldRow_ok {hk lk : RatData} : ∀ {keys : List String} (row : OutRow),
    (∀ key ∈ keys, compat3 hk key = true ∧ compat1 lk key = true) →
    keys.foldlM (fun r key => rowForItem hk lk r key) row =
      .ok (keys.foldl (rowStep hk) row) := by
  intro keys
  induction keys with
  | nil => intro row _; simp [List.foldlM_nil, exceptPure_eq]
  | cons key rest ih =>
      intro row hc
      obtain ⟨hh, hl⟩ := hc key (List.mem_cons_self _ _)
      rw [List.foldlM_cons]
      simp only [rowForItem_ok hh hl, exceptBind_ok,
        ih _ (fun k hkm => hc k (List.mem_cons_of_mem _ hkm)), exceptPure_eq]
      simp [List.foldl_cons]

theorem buildRow_ok {rat_low : List RatData} {hk : RatData} {k : Nat} {keys : List String}
    (hklt : k < rat_low.length)
    (hc : ∀ key ∈ keys,
      compat3 hk key = true ∧ compat1 (rat_low.getD k default) key = true) :
    buildRow rat_low hk k keys = .ok (rowSpec hk keys) := by
  have hget : rat_low.getD k default = rat_low[k] := List.getD_eq_getElem _ _ hklt
  rw [hget] at hc
  simp only [buildRow, nthW_ok hklt, exceptBind_ok, foldRow_ok _ hc]
  rfl

theorem buildRowsAux_ok {rh rl : List RatData} {keys : List String}
    (hlen : rh.length ≤ rl.length)
    (hc : ∀ k, k < rh.length → ∀ key ∈ keys,
      compat3 (rh.getD k default) key = true ∧ compat1 (rl.getD k default) key = true) :
    ∀ (n k : Nat), k + n = rh.length →
      buildRowsAux rh rl keys k n = .ok ((rh.drop k).map (fun r => rowSpec r keys)) := by
  intro n
  induction n with
  | zero =>
      intro k hk
      have : k = rh.length := by omega
      subst this
      simp [buildRowsAux, List.drop_length]
  | succ n ih =>
      intro k hk
      have hklt : k < rh.length := by omega
      have hkrl : k < rl.length := by omega
      have hrow := @buildRow_ok rl rh[k] k keys hkrl
        (fun key hkey => by
          have := hc k hklt key hkey
          rwa [List.getD_eq_getElem _ _ hklt] at this)
      simp only [buildRowsAux, nthW_ok hklt, exceptBind_ok, hrow, ih (k + 1) (by omega),
        exceptPure_eq]
      rw [List.drop_eq_getElem_cons hklt, List.map_cons]

theorem getD_mem_take {α : Type} [Inhabited α] {l : List α} {n k : Nat}
    (hk : k < n) (hkl : k < l.length) : l.getD k default ∈ l.take n := by
  have hkt : k < (l.take n).length := by rw [List.length_take]; omega
  have heq : (l.take n)[k] = l[k] := List.getElem_take l
  rw [List.getD_eq_getElem _ _ hkl, ← heq]
  exact List.getElem_mem hkt

theorem writeCompat_elim {h0 l0 : RatData} {hs ls : List RatData}
    (h : writeCompat (h0 :: hs) (l0 :: ls) = true)
    (hlen : (h0 :: hs).length ≤ (l0 :: ls).length) :
    (∀ key ∈ keysOf h0, compat3 h0 key = true ∧ compat3 l0 key = true) ∧
    (∀ k, k < (h0 :: hs).length → ∀ key ∈ keysOf h0,
      compat3 ((h0 :: hs).getD k default) key = true ∧
      compat1 ((l0 :: ls).getD k default) key = true) := by
  rw [writeCompat, List.all_eq_true] at h
  constructor
  · intro key hkey
    have hthis := h key hkey
    simp only [Bool.and_eq_true] at hthis
    exact ⟨hthis.1.1.1, hthis.1.1.2⟩
  · intro k hk key hkey
    have hkey2 := h key hkey
    simp only [Bool.and_eq_true, List.all_eq_true] at hkey2
    obtain ⟨⟨⟨_, _⟩, hall⟩, htake⟩ := hkey2
    constructor
    · have hmem : (h0 :: hs).getD k default ∈ (h0 :: hs) := by
        rw [List.getD_eq_getElem _ _ hk]
        exact List.getElem_mem hk
      exact hall _ hmem
    · have hkls : k < (l0 :: ls).length := lt_of_lt_of_le hk hlen
      exact htake _ (getD_mem_take hk hkls)

theorem write_csv_ok {h0 l0 : RatData} {hs ls : List RatData}
    (hcompat : writeCompat (h0 :: hs) (l0 :: ls) = true)
    (hlen : (h0 :: hs).length ≤ (l0 :: ls).length) :
    write_csv (h0 :: hs) (l0 :: ls) =
      .ok (.wrote (fieldsSpec h0 l0)
        ((h0 :: hs).map (fun r => rowSpec r (keysOf h0)))) := by
  obtain ⟨hfields, hrows⟩ := writeCompat_elim hcompat hlen
  have haux := buildRowsAux_ok hlen (fun k hk key hkey => hrows k hk key hkey)
    (h0 :: hs).length 0 (by omega)
  rw [List.drop_zero] at haux
  have h0lt : 0 < (h0 :: hs).length := by simp
  have l0lt : 0 < (l0 :: ls).length := by simp
  have hcnd : ((h0 :: hs).length < 1 || (l0 :: ls).length < 1) = false := by simp
  simp only [write_csv, hcnd, Bool.false_eq_true, if_false, nthW_ok h0lt, nthW_ok l0lt,
    List.getElem_cons_zero, exceptBind_ok, buildFields_ok hfields, haux, exceptMap_ok,
    exceptPure_eq]

theorem buildRowsAux_err {rh rl : List RatData} {keys : List String}
    (hrl : rl.length < rh.length)
    (hc : ∀ k, k < rl.length → ∀ key ∈ keys,
      compat3 (rh.getD k default) key = true ∧ compat1 (rl.getD k default) key = true) :
    ∀ (n k : Nat), k + n = rh.length → k ≤ rl.length →
      buildRowsAux rh rl keys k n = .error .indexError := by
  intro n
  induction n with
  | zero => intro k hk hkl; omega
  | succ n ih =>
      intro k hk hkl
      have hklt : k < rh.length := by omega
      by_cases hkr : k < rl.length
      · have hrow := @buildRow_ok rl rh[k] k keys hkr
          (fun key hkey => by
            have hck := hc k hkr key hkey
            rwa [List.getD_eq_getElem _ _ hklt] at hck)
        simp only [buildRowsAux, nthW_ok hklt, exceptBind_ok, hrow,
          ih (k + 1) (by omega) (by omega), exceptBind_err]
      · have hkeq : rl.length ≤ k := by omega
        simp only [buildRowsAux, nthW_ok hklt, exceptBind_ok, buildRow,
          nthW_err hkeq, exceptBind_err]

theorem write_csv_indexError {h0 l0 : RatData} {hs ls : List RatData}
    (hcompat : writeCompat (h0 :: hs) (l0 :: ls) = true)
    (hlen : (l0 :: ls).length < (h0 :: hs).length) :
    write_csv (h0 :: hs) (l0 :: ls) = .error .indexError := by
  rw [writeCompat, List.all_eq_true] at hcompat
  have hfields : ∀ key ∈ keysOf h0, compat3 h0 key = true ∧ compat3 l0 key = true := by
    intro key hkey
    have hthis := hcompat key hkey
    simp only [Bool.and_eq_true] at hthis
    exact ⟨hthis.1.1.1, hthis.1.1.2⟩
  have hc : ∀ k, k < (l0 :: ls).length → ∀ key ∈ keysOf h0,
      compat3 ((h0 :: hs).getD k default) key = true ∧
      compat1 ((l0 :: ls).getD k default) key = true := by
    intro k hk key hkey
    have hkey2 := hcompat key hkey
    simp only [Bool.and_eq_true, List.all_eq_true] at hkey2
    obtain ⟨⟨⟨_, _⟩, hall⟩, htake⟩ := hkey2
    have hkrh : k < (h0 :: hs).length := by omega
    refine ⟨?_, ?_⟩
    · have hmem : (h0 :: hs).getD k default ∈ (h0 :: hs) := by
        rw [List.getD_eq_getElem _ _ hkrh]
        exact List.getElem_mem hkrh
      exact hall _ hmem
    · exact htake _ (getD_mem_take hkrh hk)
  have haux := buildRowsAux_err hlen hc (h0 :: hs).length 0 (by omega) (by omega)
  have h0lt : 0 < (h0 :: hs).length := by simp
  have l0lt : 0 < (l0 :: ls).length := by simp
  have hcnd : ((h0 :: hs).length < 1 || (l0 :: ls).length < 1) = false := by simp
  simp only [write_csv, hcnd, Bool.false_eq_true, if_false, nthW_ok h0lt, nthW_ok l0lt,
    List.getElem_cons_zero, exceptBind_ok, buildFields_ok hfields, haux, exceptBind_err]

/-! ### Row keys: every value in a data row comes from the first list -/

theorem dictInsert_keys_subset {α : Type} (d : List (String × α)) (k : String) (v : α) :
    ∀ x ∈ (dictInsert d k v).map Prod.fst, x ∈ k :: d.map Prod.fst := by
  intro x hx
  unfold dictInsert at hx
  by_cases hka : d.any (fun p => p.1 == k) = true
  · rw [if_pos hka] at hx
    rcases List.mem_map.mp hx with ⟨p, hp, hpx⟩
    rcases List.mem_map.mp hp with ⟨q, hq, hqp⟩
    by_cases hqk : (q.1 == k) = true
    · rw [if_pos hqk] at hqp
      rw [← hpx, ← hqp]
      exact List.mem_cons_self _ _
    · rw [if_neg hqk] at hqp
      rw [← hpx, ← hqp]
      exact List.mem_cons_of_mem _ (List.mem_map_of_mem Prod.fst hq)
  · rw [if_neg hka, List.map_append] at hx
    rcases List.mem_append.mp hx with hx1 | hx2
    · exact List.mem_cons_of_mem _ hx1
    · simp only [List.map_cons, List.map_nil, List.mem_singleton] at hx2
      rw [hx2]
      exact List.mem_cons_self _ _

theorem rowStep_keys_subset (hk : RatData) (key : String) (row : OutRow) :
    ∀ x ∈ (rowStep hk row key).map Prod.fst,
      x ∈ (subPairD hk key 0).1 :: (subPairD hk key 1).1 :: (subPairD hk key 2).1 ::
        row.map Prod.fst := by
  intro x hx
  have h2 := dictInsert_keys_subset _ _ _ x hx
  rcases List.mem_cons.mp h2 with h2e | h2r
  · exact h2e ▸ List.mem_cons_of_mem _ (List.mem_cons_of_mem _ (List.mem_cons_self _ _))
  · have h1 := dictInsert_keys_subset _ _ _ x h2r
    rcases List.mem_cons.mp h1 with h1e | h1r
    · exact h1e ▸ List.mem_cons_of_mem _ (List.mem_cons_self _ _)
    · have h0 := dictInsert_keys_subset _ _ _ x h1r
      rcases List.mem_cons.mp h0 with h0e | h0r
      · exact h0e ▸ List.mem_cons_self _ _
      · exact List.mem_cons_of_mem _ (List.mem_cons_of_mem _ (List.mem_cons_of_mem _ h0r))

theorem foldRow_keys_subset (hk : RatData) : ∀ (keys : List String) (row : OutRow),
    ∀ x ∈ ((keys.foldl (rowStep hk) row).map Prod.fst),
      x ∈ row.map Prod.fst ++
        (keys.map (fun key =>
          [(subPairD hk key 0).1, (subPairD hk key 1).1, (subPairD hk key 2).1])).flatten := by
  intro keys
  induction keys with
  | nil => intro row x hx; simpa using hx
  | cons key rest ih =>
      intro row x hx
      rw [List.foldl_cons] at hx
      have hsub := ih (rowStep hk row key) x hx
      rcases List.mem_append.mp hsub with h1 | h2
      · have h3 := rowStep_keys_subset hk key row x h1
        simp only [List.map_cons, List.flatten_cons, List.mem_append, List.mem_cons] at h3 ⊢
        tauto
      · simp only [List.map_cons, List.flatten_cons, List.mem_append, List.mem_cons] at h2 ⊢
        tauto

theorem rowSpec_keys_subset (hk : RatData) (keys : List String) :
    ∀ x ∈ (rowSpec hk keys).map Prod.fst, x ∈ hkColumns hk keys := by
  intro x hx
  have hsub := foldRow_keys_subset hk keys _ x hx
  simp only [hkColumns, List.mem_append, List.mem_cons] at hsub ⊢
  simp only [List.map_cons, List.map_nil, List.mem_cons, List.mem_singleton] at hsub
  tauto

theorem rowSpec_find?_none {hk : RatData} {keys : List String} {c : String}
    (hc : c ∉ hkColumns hk keys) :
    (rowSpec hk keys).find? (fun p => p.1 == c) = none := by
  cases hfind : (rowSpec hk keys).find? (fun p => p.1 == c) with
  | none => rfl
  | some p =>
      exfalso
      have hmem := List.mem_of_find?_eq_some hfind
      have hbeq := List.find?_some hfind
      have hpc : p.1 = c := by simpa using hbeq
      exact hc (hpc ▸ rowSpec_keys_subset hk keys p.1 (List.mem_map_of_mem Prod.fst hmem))

/-! ### Header of records built by the Reader -/

theorem find?_of_nodup_getElem {β : Type} :
    ∀ {l : List (String × β)} {g : Nat} {p : String × β},
      l[g]? = some p → (l.map Prod.fst).Nodup →
      l.find? (fun q => q.1 == p.1) = some p := by
  intro l
  induction l with
  | nil => intro g p hp _; simp at hp
  | cons a rest ih =>
      intro g p hp hnd
      rw [List.map_cons, List.nodup_cons] at hnd
      obtain ⟨hna, hnrest⟩ := hnd
      cases g with
      | zero =>
          rw [List.getElem?_cons_zero] at hp
          have hap : a = p := Option.some.inj hp
          subst hap
          exact List.find?_cons_of_pos _ (by simp)
      | succ g2 =>
          rw [List.getElem?_cons_succ] at hp
          have hpmem : p ∈ rest := by
            rcases List.getElem?_eq_some.mp hp with ⟨hlt, heq⟩
            exact heq ▸ List.getElem_mem hlt
          have hane : ¬ (a.1 == p.1) = true := by
            rw [beq_iff_eq]
            intro he
            exact hna (he ▸ List.mem_map_of_mem Prod.fst hpmem)
          exact (List.find?_cons_of_neg rest hane).trans (ih hp hnrest)

theorem subPairD_read {row0 row1 : List String} {M : Nat} {iso : String}
    (hnd : ((List.range M).map (fun g => pyStrip (row0.getD (2 + 3 * g) ""))).Nodup)
    (idv gv ggv : String) (g : Nat) (hg : g < M) (j : Nat) :
    subPairD
      ⟨idv, gv, ggv, iso, (List.range M).map (fun g2 => groupEntryR row0 row1 iso (2 + 3 * g2))⟩
      (pyStrip (row0.getD (2 + 3 * g) "")) j =
      (groupEntryR row0 row1 iso (2 + 3 * g)).2.getD j ("", PyVal.str "") := by
  have hget : ((List.range M).map
      (fun g2 => groupEntryR row0 row1 iso (2 + 3 * g2)))[g]? =
      some (groupEntryR row0 row1 iso (2 + 3 * g)) := by
    rw [List.getElem?_map, List.getElem?_range hg]
    rfl
  have hmapfst : ((List.range M).map
      (fun g2 => groupEntryR row0 row1 iso (2 + 3 * g2))).map Prod.fst =
      (List.range M).map (fun g2 => pyStrip (row0.getD (2 + 3 * g2) "")) := by
    rw [List.map_map]
    rfl
  have hfind := find?_of_nodup_getElem hget (by rw [hmapfst]; exact hnd)
  have hfst : (groupEntryR row0 row1 iso (2 + 3 * g)).1 = pyStrip (row0.getD (2 + 3 * g) "") :=
    rfl
  rw [hfst] at hfind
  rw [subPairD, hfind]
  rfl

theorem fieldsSpec_read {row0 row1h row1l : List String} {M : Nat}
    (hnd : ((List.range M).map (fun g => pyStrip (row0.getD (2 + 3 * g) ""))).Nodup)
    (idh gh ggh idl gl ggl : String) :
    fieldsSpec
      ⟨idh, gh, ggh, "iso_high",
        (List.range M).map (fun g => groupEntryR row0 row1h "iso_high" (2 + 3 * g))⟩
      ⟨idl, gl, ggl, "iso_low",
        (List.range M).map (fun g => groupEntryR row0 row1l "iso_low" (2 + 3 * g))⟩ =
      headerNamesSpec row0 M := by
  rw [fieldsSpec, headerNamesSpec]
  have hkeys : keysOf ⟨idh, gh, ggh, "iso_high",
      (List.range M).map (fun g => groupEntryR row0 row1h "iso_high" (2 + 3 * g))⟩ =
      (List.range M).map (fun g => pyStrip (row0.getD (2 + 3 * g) "")) := by
    rw [keysOf, List.map_map]
    rfl
  rw [hkeys, List.map_map]
  refine congrArg (fun t : List (List String) => ["Id", "Genotype", "Gender"] ++ t.flatten) ?_
  refine List.map_congr_left ?_
  intro g hg
  have hgM : g < M := List.mem_range.mp hg
  simp only [Function.comp]
  rw [groupNames, subPairD_read hnd idh gh ggh g hgM 0, subPairD_read hnd idh gh ggh g hgM 1,
    subPairD_read hnd idh gh ggh g hgM 2, subPairD_read hnd idl gl ggl g hgM 0,
    subPairD_read hnd idl gl ggl g hgM 1, subPairD_read hnd idl gl ggl g hgM 2]
  rfl

theorem read_csv_ok_iso {table : Table} {rat_id gender genetics : String} {iso : Bool}
    {r : RatData} (h : read_csv table rat_id gender genetics iso = .ok r) :
    r.iso = if iso then "iso_high" else "iso_low" := by
  unfold read_csv at h
  cases h0 : table[0]? with
  | none => rw [h0] at h; exact Except.noConfusion h
  | some row0 =>
      rw [h0] at h
      dsimp only at h
      cases hl : readLoop table (if iso then "iso_high" else "iso_low") [] 2
          (numIters row0.length) with
      | error e => rw [hl] at h; exact Except.noConfusion h
      | ok m =>
          rw [hl] at h
          dsimp only at h
          have hinj := Except.ok.inj h
          rw [← hinj]

/-! ### The claims -/

/-- C1 (code bug): the spec's round-trip property fails on the code.  On
the concrete one-subject scenario (`Id=7, Genotype=Tg, Gender=M`, high
`Cr=8.2`, low `Cr=7.9`), `write_csv` emits exactly one data row, and the
header does contain the second list's columns, but the row itself binds
only the three identity fields plus the first list's 3·M values
(9 entries, not 3+6·M=15): `Cr iso_high` carries 8.2, while `Cr iso_low`
has no value in the row (DictWriter serializes it as the empty string),
where the claim requires 7.9. -/
theorem write_csv_drops_second_list_values :
    write_csv [highRec] [lowRec] =
      .ok (.wrote (fieldsSpec highRec lowRec) [rowSpec highRec (keysOf highRec)]) ∧
    "Cr iso_low" ∈ fieldsSpec highRec lowRec ∧
    (rowSpec highRec (keysOf highRec)).find? (fun p => p.1 == "Cr iso_high") =
      some ("Cr iso_high", .float (mkRat 41 5)) ∧
    ((rowSpec highRec (keysOf highRec)).find? (fun p => p.1 == "Cr iso_low")).map Prod.snd =
      none ∧
    (rowSpec highRec (keysOf highRec)).length = 9 ∧
    (fieldsSpec highRec lowRec).length = 15 := by
  decide

/-- C2: for every compatible pair of non-empty Record lists (the first
no longer than the second; equal lengths included), `write_csv` writes
rows built from the first list alone: row `k` is `rowSpec` of the `k`-th
first-list record, every key of such a row is one of the three identity
fields or a sub-field name stored in that record (`hkColumns`), and any
column not among those — in particular every second-list column name
distinct from them — has no value in the row, so `serializeRow` (the
DictWriter semantics) emits it as the empty cell.  Finally `main_write`
records that `main` passes the low-condition list as the first
argument (line 207), so only low-condition measurements reach the rows. -/
theorem write_csv_rows_use_only_first_list
    (h0 l0 : RatData) (hs ls : List RatData)
    (hcompat : writeCompat (h0 :: hs) (l0 :: ls) = true)
    (hlen : (h0 :: hs).length ≤ (l0 :: ls).length) :
    write_csv (h0 :: hs) (l0 :: ls) =
      .ok (.wrote (fieldsSpec h0 l0) ((h0 :: hs).map (fun r => rowSpec r (keysOf h0)))) ∧
    (∀ hk : RatData, ∀ x ∈ (rowSpec hk (keysOf h0)).map Prod.fst,
      x ∈ hkColumns hk (keysOf h0)) ∧
    (∀ hk : RatData, ∀ c : String, c ∉ hkColumns hk (keysOf h0) →
      ((rowSpec hk (keysOf h0)).find? (fun p => p.1 == c)).map Prod.snd = none) ∧
    (∀ a b : List RatData, main_write a b = write_csv a b) :=
  ⟨write_csv_ok hcompat hlen,
   fun hk => rowSpec_keys_subset hk (keysOf h0),
   fun hk c hc => by rw [rowSpec_find?_none hc]; rfl,
   fun a b => rfl⟩

/-- C2 witness: on the concrete one-subject lists, the table is written
with the closed-form header and single row, and the low-condition column
`Cr iso_low` serializes empty. -/
theorem write_csv_rows_use_only_first_list_witness :
    write_csv [highRec] [lowRec] =
      .ok (.wrote (fieldsSpec highRec lowRec) [rowSpec highRec (keysOf highRec)]) ∧
    ((rowSpec highRec (keysOf highRec)).find? (fun p => p.1 == "Cr iso_low")).map Prod.snd =
      none := by
  have h := write_csv_rows_use_only_first_list highRec lowRec [] [] (by decide) (by decide)
  exact ⟨h.1, h.2.2.1 highRec "Cr iso_low" (by decide)⟩

/-- C3: with an empty list on either side, `write_csv` prints the
"No rat data available" diagnostic and returns without writing or
raising (`noData` is the only effect). -/
theorem write_csv_empty_no_data (rat_high rat_low : List RatData)
    (h : rat_high = [] ∨ rat_low = []) :
    write_csv rat_high rat_low = .ok .noData := by
  rcases h with h | h <;> subst h <;> simp [write_csv]

/-- C3 witness. -/
theorem write_csv_empty_no_data_witness :
    write_csv [] [lowRec] = .ok .noData :=
  write_csv_empty_no_data [] [lowRec] (Or.inl rfl)

/-- C4 is false as stated: with non-empty lists of unequal length (one
high record, two low records), `write_csv` raises no validation error;
it silently writes a one-row table, ignoring the second list's extra
record. -/
theorem write_csv_length_mismatch_no_error :
    write_csv [highRec] [lowRec, lowRec] =
      .ok (.wrote (fieldsSpec highRec lowRec) [rowSpec highRec (keysOf highRec)]) ∧
    (wroteRows (write_csv [highRec] [lowRec, lowRec])).length = 1 := by
  decide

/-- C4 amended: `write_csv` performs no length validation.  With
compatible non-empty lists, a strictly shorter first list yields a
silently written partial table with one row per first-list record
(the second list's excess records are ignored), and a strictly longer
first list aborts with an index error (out-of-range access at
`rat_low[k]`), not a validation error. -/
theorem write_csv_no_length_validation
    (h0 l0 : RatData) (hs ls : List RatData)
    (hcompat : writeCompat (h0 :: hs) (l0 :: ls) = true) :
    ((h0 :: hs).length < (l0 :: ls).length →
      write_csv (h0 :: hs) (l0 :: ls) =
        .ok (.wrote (fieldsSpec h0 l0)
          ((h0 :: hs).map (fun r => rowSpec r (keysOf h0))))) ∧
    ((l0 :: ls).length < (h0 :: hs).length →
      write_csv (h0 :: hs) (l0 :: ls) = .error .indexError) :=
  ⟨fun hlt => write_csv_ok hcompat (le_of_lt hlt),
   fun hlt => write_csv_indexError hcompat hlt⟩

/-- C4 amended witness: one high record against two low records writes
one row without error. -/
theorem write_csv_no_length_validation_witness :
    write_csv [highRec] [lowRec, lowRec] =
      .ok (.wrote (fieldsSpec highRec lowRec) [rowSpec highRec (keysOf highRec)]) :=
  (write_csv_no_length_validation highRec lowRec [] [lowRec] (by decide)).1 (by decide)

/-- C5: on a valid two-row file whose header row has 2+3M columns (data
row at least as long, every consumed numeric field converting, the M
trimmed group headers distinct), `read_csv` returns a Record whose
`metabolites` list has exactly M entries, entry `g` keyed by the trimmed
first header of the group at columns 2+3g..2+3g+2 and holding that
group's (float concentration, int %SD, float ratio) parsed from the data
row, each sub-name joining the trimmed header and the condition label. -/
theorem read_csv_groups_spec {table : Table} {row0 row1 : List String} {M : Nat}
    (h0 : table[0]? = some row0) (h1 : table[1]? = some row1)
    (hM : row0.length = 2 + 3 * M) (hlen : row0.length ≤ row1.length)
    (hp : ∀ j, j < M → groupParses table (2 + 3 * j) = true)
    (hnd : ((List.range M).map (fun j => pyStrip (row0.getD (2 + 3 * j) ""))).Nodup)
    (rat_id gender genetics : String) (iso : Bool) :
    read_csv table rat_id gender genetics iso =
      .ok ⟨rat_id, gender, genetics, if iso then "iso_high" else "iso_low",
        (List.range M).map (fun g =>
          groupEntryR row0 row1 (if iso then "iso_high" else "iso_low") (2 + 3 * g))⟩ ∧
    ((List.range M).map (fun g =>
      groupEntryR row0 row1 (if iso then "iso_high" else "iso_low") (2 + 3 * g))).length =
      M :=
  ⟨read_csv_closed h0 h1 hM hlen hp hnd rat_id gender genetics iso, by simp⟩

/-- C5 witness: the concrete scenario's high-condition file parses to
`highRec`, with two metabolite entries `Cr` and `NAA`. -/
theorem read_csv_groups_spec_witness :
    read_csv [["", "", "Cr", "Cr %SD", "Cr /Cr+PCr", "NAA", "NAA %SD", "NAA /Cr+PCr"],
              ["7", "x", "8.2", "5", "1.0", "9.4", "4", "1.1"]] "7" "M" "Tg" true =
      .ok highRec ∧ highRec.metabolites.length = 2 := by
  have h := @read_csv_groups_spec
    [["", "", "Cr", "Cr %SD", "Cr /Cr+PCr", "NAA", "NAA %SD", "NAA /Cr+PCr"],
     ["7", "x", "8.2", "5", "1.0", "9.4", "4", "1.1"]]
    ["", "", "Cr", "Cr %SD", "Cr /Cr+PCr", "NAA", "NAA %SD", "NAA /Cr+PCr"]
    ["7", "x", "8.2", "5", "1.0", "9.4", "4", "1.1"] 2
    rfl rfl (by decide) (by decide) (by decide) (by decide) "7" "M" "Tg" true
  exact ⟨h.1.trans (by decide), by decide⟩

/-- C6: an input whose consumed data-row positions are all in range but
contain a malformed numeric field (a group whose float/int conversions
do not all succeed) makes `read_csv` abort with a `ValueError` and
return no Record. -/
theorem read_csv_malformed_field_errors {table : Table} {row0 row1 : List String} {M : Nat}
    (h0 : table[0]? = some row0) (h1 : table[1]? = some row1)
    (hM : row0.length = 2 + 3 * M) (hlen : row0.length ≤ row1.length)
    (hbad : ∃ j, j < M ∧ ¬ groupParses table (2 + 3 * j) = true)
    (rat_id gender genetics : String) (iso : Bool) :
    read_csv table rat_id gender genetics iso = .error .valueError ∧
    ∀ r : RatData, ¬ read_csv table rat_id gender genetics iso = .ok r := by
  have h := read_csv_malformed h0 h1 hM hlen hbad rat_id gender genetics iso
  refine ⟨h, fun r hr => ?_⟩
  rw [h] at hr
  exact Except.noConfusion hr

/-- C6 witness: a non-numeric concentration field aborts the read. -/
theorem read_csv_malformed_field_errors_witness :
    read_csv [["", "", "Cr", "Cr %SD", "Cr /Cr+PCr"], ["", "", "oops", "5", "1.0"]]
      "7" "M" "Tg" false = .error .valueError := by
  have h := @read_csv_malformed_field_errors
    [["", "", "Cr", "Cr %SD", "Cr /Cr+PCr"], ["", "", "oops", "5", "1.0"]]
    ["", "", "Cr", "Cr %SD", "Cr /Cr+PCr"] ["", "", "oops", "5", "1.0"] 1
    rfl rfl (by decide) (by decide) ⟨0, by decide, by decide⟩ "7" "M" "Tg" false
  exact h.1

/-- C7: when the heads of the two lists were produced by `read_csv` from
two files sharing the header row `row0` with M well-formed groups, the
header `write_csv` writes is exactly `Id, Genotype, Gender` followed,
per metabolite in the discovery order of the first record of the first
list, by six columns — for each of the three sub-field headers
(trimmed), the high-condition column then the low-condition column,
each name joining the trimmed sub-field header and the condition label
(`headerNamesSpec`).  The header depends only on the first pair of
records: it is built once from them. -/
theorem write_csv_header_spec {tableH tableL : Table} {row0 row1h row1l : List String}
    {M : Nat} {h0 l0 : RatData} {hs ls : List RatData}
    (hH0 : tableH[0]? = some row0) (hH1 : tableH[1]? = some row1h)
    (hL0 : tableL[0]? = some row0) (hL1 : tableL[1]? = some row1l)
    (hM : row0.length = 2 + 3 * M)
    (hlenH : row0.length ≤ row1h.length) (hlenL : row0.length ≤ row1l.length)
    (hpH : ∀ j, j < M → groupParses tableH (2 + 3 * j) = true)
    (hpL : ∀ j, j < M → groupParses tableL (2 + 3 * j) = true)
    (hnd : ((List.range M).map (fun j => pyStrip (row0.getD (2 + 3 * j) ""))).Nodup)
    (idh gh ggh idl gl ggl : String)
    (hrecH : read_csv tableH idh gh ggh true = .ok h0)
    (hrecL : read_csv tableL idl gl ggl false = .ok l0)
    (hcompat : writeCompat (h0 :: hs) (l0 :: ls) = true)
    (hlen : (h0 :: hs).length ≤ (l0 :: ls).length) :
    write_csv (h0 :: hs) (l0 :: ls) =
      .ok (.wrote (headerNamesSpec row0 M)
        ((h0 :: hs).map (fun r => rowSpec r (keysOf h0)))) := by
  have hH2 : read_csv tableH idh gh ggh true =
      .ok ⟨idh, gh, ggh, "iso_high",
        (List.range M).map (fun g => groupEntryR row0 row1h "iso_high" (2 + 3 * g))⟩ :=
    read_csv_closed hH0 hH1 hM hlenH hpH hnd idh gh ggh true
  have hL2 : read_csv tableL idl gl ggl false =
      .ok ⟨idl, gl, ggl, "iso_low",
        (List.range M).map (fun g => groupEntryR row0 row1l "iso_low" (2 + 3 * g))⟩ :=
    read_csv_closed hL0 hL1 hM hlenL hpL hnd idl gl ggl false
  have hh0 : h0 = ⟨idh, gh, ggh, "iso_high",
      (List.range M).map (fun g => groupEntryR row0 row1h "iso_high" (2 + 3 * g))⟩ :=
    Except.ok.inj (hrecH.symm.trans hH2)
  have hl0 : l0 = ⟨idl, gl, ggl, "iso_low",
      (List.range M).map (fun g => groupEntryR row0 row1l "iso_low" (2 + 3 * g))⟩ :=
    Except.ok.inj (hrecL.symm.trans hL2)
  rw [write_csv_ok hcompat hlen, hh0, hl0, fieldsSpec_read hnd]

/-- C7 witness: both concrete scenario files share the header row; the
written header is the closed-form `headerNamesSpec` list. -/
theorem write_csv_header_spec_witness :
    write_csv [highRec] [lowRec] =
      .ok (.wrote
        (headerNamesSpec ["", "", "Cr", "Cr %SD", "Cr /Cr+PCr", "NAA", "NAA %SD",
          "NAA /Cr+PCr"] 2)
        [rowSpec highRec (keysOf highRec)]) := by
  exact @write_csv_header_spec
    [["", "", "Cr", "Cr %SD", "Cr /Cr+PCr", "NAA", "NAA %SD", "NAA /Cr+PCr"],
     ["7", "x", "8.2", "5", "1.0", "9.4", "4", "1.1"]]
    [["", "", "Cr", "Cr %SD", "Cr /Cr+PCr", "NAA", "NAA %SD", "NAA /Cr+PCr"],
     ["7", "x", "7.9", "6", "1.0", "9.0", "5", "1.2"]]
    ["", "", "Cr", "Cr %SD", "Cr /Cr+PCr", "NAA", "NAA %SD", "NAA /Cr+PCr"]
    ["7", "x", "8.2", "5", "1.0", "9.4", "4", "1.1"]
    ["7", "x", "7.9", "6", "1.0", "9.0", "5", "1.2"] 2 highRec lowRec [] []
    rfl rfl rfl rfl (by decide) (by decide) (by decide) (by decide) (by decide) (by decide)
    "7" "M" "Tg" "7" "M" "Tg" (by decide) (by decide) (by decide) (by decide)

/-- C8 is false as stated: the code does not guard short header rows.  A
4-column header (incomplete final group from index 2) with a fully
numeric data row drives `read_csv` into an out-of-range list access
(IndexError) rather than a guarded return. -/
theorem read_csv_incomplete_header_index_error :
    headerComplete (["", "", "Cr", "x"] : List String).length = false ∧
    read_csv [["", "", "Cr", "x"], ["", "", "8.2", "5"]] "7" "M" "Tg" true =
      .error .indexError := by
  decide

/-- C8 amended: `read_csv` has no guard, so a header row with an
incomplete final group can produce an out-of-range access (see the
counterexample); such inputs are undefined behavior the caller must
avoid.  On inputs whose header row consists of complete groups of three
from index 2 (`headerComplete`) and whose data row is at least as long
as the header row, the read performs no out-of-range list access: it
never returns `IndexError`. -/
theorem read_csv_complete_header_safe {table : Table} {row0 row1 : List String}
    (h0 : table[0]? = some row0) (h1 : table[1]? = some row1)
    (hc : headerComplete row0.length = true)
    (hlen : row0.length ≤ row1.length) (rat_id gender genetics : String) (iso : Bool) :
    ¬ read_csv table rat_id gender genetics iso = .error .indexError :=
  read_csv_no_indexError h0 h1 hc hlen rat_id gender genetics iso

/-- C8 amended witness: the complete-header concrete file reads without
any out-of-range access. -/
theorem read_csv_complete_header_safe_witness :
    ¬ read_csv [["", "", "Cr", "Cr %SD", "Cr /Cr+PCr", "NAA", "NAA %SD", "NAA /Cr+PCr"],
        ["7", "x", "8.2", "5", "1.0", "9.4", "4", "1.1"]] "7" "M" "Tg" true =
      .error .indexError := by
  exact @read_csv_complete_header_safe
    [["", "", "Cr", "Cr %SD", "Cr /Cr+PCr", "NAA", "NAA %SD", "NAA /Cr+PCr"],
     ["7", "x", "8.2", "5", "1.0", "9.4", "4", "1.1"]]
    ["", "", "Cr", "Cr %SD", "Cr /Cr+PCr", "NAA", "NAA %SD", "NAA /Cr+PCr"]
    ["7", "x", "8.2", "5", "1.0", "9.4", "4", "1.1"]
    rfl rfl (by decide) (by decide) "7" "M" "Tg" true

/-- C9: the Driver splits the stripped subject directory name on the
underscore delimiter and extracts component 1 as subject id, component 6
as genotype and component 7 as gender (lines 189–192); and the
high-condition branch is selected exactly when the condition directory
name contains the substring "high" (line 197). -/
theorem main_dir_parsing_spec :
    (∀ (name : String) (lst : List String),
      lst = pySplitUnderscore (pyStrip name) → 8 ≤ lst.length →
      parse_subject_dir name = some (lst.getD 1 "", lst.getD 6 "", lst.getD 7 "")) ∧
    (∀ iso_dir : String, is_high iso_dir = true ↔
      List.IsInfix "high".toList iso_dir.toList) := by
  constructor
  · intro name lst hl hlen
    have h1 : 1 < lst.length := by omega
    have h6 : 6 < lst.length := by omega
    have h7 : 7 < lst.length := by omega
    rw [parse_subject_dir, ← hl]
    rw [List.getElem?_eq_getElem h1, List.getElem?_eq_getElem h6, List.getElem?_eq_getElem h7]
    dsimp only
    rw [List.getD_eq_getElem _ _ h1, List.getD_eq_getElem _ _ h6, List.getD_eq_getElem _ _ h7]
  · intro iso_dir
    rw [is_high]
    exact decide_eq_true_iff

/-- C9 witness: the concrete scenario's directory names. -/
theorem main_dir_parsing_spec_witness :
    parse_subject_dir "Study_7_x_x_x_x_Tg_M" = some ("7", "Tg", "M") ∧
    is_high "iso_high" = true ∧ is_high "iso_low" = false := by
  refine ⟨?_, ?_, by decide⟩
  · have h := main_dir_parsing_spec.1 "Study_7_x_x_x_x_Tg_M" _ rfl (by decide)
    exact h.trans (by decide)
  · exact (main_dir_parsing_spec.2 "iso_high").mpr (by decide)

/-- C10: every Record `read_csv` returns carries one of exactly the two
recognized condition labels, `"iso_high"` precisely when the condition
flag is true and `"iso_low"` otherwise.  In this pure embedding records
are immutable, and `write_csv` only reads `iso` (lines 110–111), so no
later operation changes the field. -/
theorem read_csv_iso_label_spec (table : Table) (rat_id gender genetics : String)
    (iso : Bool) (r : RatData)
    (h : read_csv table rat_id gender genetics iso = .ok r) :
    (r.iso = "iso_high" ∨ r.iso = "iso_low") ∧
    (r.iso = "iso_high" ↔ iso = true) ∧ (r.iso = "iso_low" ↔ iso = false) := by
  have hlab := read_csv_ok_iso h
  cases iso with
  | true =>
      rw [if_pos rfl] at hlab
      exact ⟨Or.inl hlab, by simp [hlab], by simp [hlab]⟩
  | false =>
      rw [if_neg (by simp)] at hlab
      exact ⟨Or.inr hlab, by simp [hlab], by simp [hlab]⟩

/-- C10 witness: the concrete scenario's high-condition record carries
`"iso_high"`. -/
theorem read_csv_iso_label_spec_witness :
    (highRec.iso = "iso_high" ∨ highRec.iso = "iso_low") ∧
    (highRec.iso = "iso_high" ↔ true = true) ∧ (highRec.iso = "iso_low" ↔ true = false) :=
  read_csv_iso_label_spec
    [["", "", "Cr", "Cr %SD", "Cr /Cr+PCr", "NAA", "NAA %SD", "NAA /Cr+PCr"],
     ["7", "x", "8.2", "5", "1.0", "9.4", "4", "1.1"]]
    "7" "M" "Tg" true highRec (by decide)

end Analyzer
